import Mathlib

/-!
Verification of the TSA-CMS page synchronization and commit protocol.

Shallow embedding of the GitHub repository client (`github.ts`), the page
discovery helper (`utils.ts`), the editor save logic
(`src/app/editor/page.tsx`), the media upload route
(`src/app/api/upload/route.ts`) and the zustand store
(`store.ts`), together with theorems about the conflict, save,
discovery and media-replacement behaviour.
-/

deriving instance DecidableEq for Except

namespace TsaCms

/-- A stored file record on the remote store: raw content plus the
server-assigned revision token (the GitHub blob SHA), modelled as a `Nat`. -/
structure FileRecord where
  content : String
  sha : Nat
deriving Repr, DecidableEq

/-- Modelled from the spec: the remote Repository Store (the GitHub Contents
API reached through `api.get` / `api.put` / `api.delete` in `github.ts`),
which is an external service, not code of this repository. Files are keyed
by path; `nextSha` generates a fresh revision token on every write. -/
structure Store where
  files : List (String × FileRecord)
  nextSha : Nat
deriving Repr, DecidableEq

/-- Look up the record stored at `path`. -/
def Store.find (st : Store) (path : String) : Option FileRecord :=
  (st.files.find? (fun kv => kv.1 == path)).map (fun kv => kv.2)

/-- Write `content` at `path`, stamping it with the next fresh revision
token. -/
def Store.set (st : Store) (path content : String) : Store :=
  { files := (path, ⟨content, st.nextSha⟩) :: st.files.filter (fun kv => kv.1 != path),
    nextSha := st.nextSha + 1 }

/-- Errors surfaced by the remote store. -/
inductive StoreError where
  | conflict
  | alreadyExists
  | notFound
deriving Repr, DecidableEq

/-- Modelled from the spec: the server side of
`writeContent(path, content, message, revisionToken?)`. If a token is given
the server atomically verifies it against the current stored revision and
fails with `Conflict` on mismatch; if no token is given the write succeeds
only for a genuinely new path (otherwise `AlreadyExists`). -/
def putContents (st : Store) (path content : String) (sha : Option Nat) :
    Except StoreError (Nat × Store) :=
  match st.find path with
  | some fr =>
    match sha with
    | some s =>
      if fr.sha = s then .ok (st.nextSha, st.set path content)
      else .error .conflict
    | none => .error .alreadyExists
  | none =>
    match sha with
    | some _ => .error .conflict
    | none => .ok (st.nextSha, st.set path content)

/-- Embeds `commitFile` from `github.ts`: it first fetches the CURRENT sha of
the path from the server (swallowing failure, leaving the sha empty when the
file does not exist) and then issues the conditional put with that freshly
fetched sha. It takes no caller-held revision token. -/
def commitFile (st : Store) (path content : String) :
    Except StoreError (Nat × Store) :=
  let sha : Option Nat := (st.find path).map (fun fr => fr.sha)
  putContents st path content sha

/-- Embeds `getFileContent` from `github.ts`: reads the decoded content of a
file, failing when the path is absent. -/
def getFileContent (st : Store) (path : String) : Except StoreError String :=
  match st.find path with
  | some fr => .ok fr.content
  | none => .error .notFound

/-- Render a store error as the message text attached to the thrown error. -/
def errorMessage : StoreError → String
  | .conflict => "Conflict"
  | .alreadyExists => "AlreadyExists"
  | .notFound => "NotFound"

/-- Content kind of a discovered page, from the `json | html` union type. -/
inductive FileType where
  | json
  | html
deriving Repr, DecidableEq

/-- The `Page` interface of `src/app/editor/page.tsx`. -/
structure Page where
  name : String
  path : String
  type : FileType
deriving Repr, DecidableEq

/-- The `EditorPage` interface of `src/app/editor/page.tsx`: a page plus its
loaded content and the dirty flag. -/
structure EditorPage extends Page where
  content : String
  isDirty : Bool
deriving Repr, DecidableEq

/-- The React state of `EditorPage` (the component) that the save and load
logic touches: `currentPage`, `isSaving`, `error` and `pendingNavigation`. -/
structure EditorState where
  currentPage : Option EditorPage
  isSaving : Bool
  error : String
  pendingNavigation : Option Page
deriving Repr, DecidableEq

/-- Embeds `loadPage` from `src/app/editor/page.tsx`: reads the file content
and installs it as the current page with `isDirty = false`, clearing the
error and the pending navigation; on failure only the error message is set. -/
def loadPage (st : Store) (s : EditorState) (pg : Page) : EditorState :=
  match getFileContent st pg.path with
  | .ok content =>
    { s with
      currentPage := some { toPage := pg, content := content, isDirty := false },
      error := "",
      pendingNavigation := none }
  | .error e =>
    { s with error := "Failed to load page: " ++ errorMessage e }

/-- Embeds `handleSave` from `src/app/editor/page.tsx`. Guard: return
unchanged when no page is open or the page is not dirty. Otherwise set
`isSaving`, clear the error, run `commitFile` with the page's content, clear
the dirty flag, re-read the file to confirm the change and install the
re-read content, then run any pending navigation; any thrown error lands in
the catch branch which sets the error message; `isSaving` is reset on every
exit (the `finally` block). Returns the store paired with the new state. -/
def handleSave (st : Store) (s : EditorState) : Store × EditorState :=
  match s.currentPage with
  | none => (st, s)
  | some cp =>
    if !cp.isDirty then (st, s)
    else
      let s1 := { s with isSaving := true, error := "" }
      match commitFile st cp.path cp.content with
      | .error e =>
        (st, { s1 with error := "Failed to save: " ++ errorMessage e, isSaving := false })
      | .ok (_, st1) =>
        let s2 := { s1 with currentPage := some { cp with isDirty := false } }
        match getFileContent st1 cp.path with
        | .error e =>
          (st1, { s2 with error := "Failed to save: " ++ errorMessage e, isSaving := false })
        | .ok updated =>
          let s3 :=
            { s2 with currentPage := some { cp with content := updated, isDirty := false } }
          match s3.pendingNavigation with
          | some pg =>
            let s4 := loadPage st1 s3 pg
            (st1, { s4 with isSaving := false })
          | none => (st1, { s3 with isSaving := false })

/-- After a write, looking up the written path returns the new record. -/
theorem find_set_self (st : Store) (p c : String) :
    (st.set p c).find p = some ⟨c, st.nextSha⟩ := by
  simp [Store.set, Store.find]

/-- `commitFile` on an existing path always succeeds: it fetches the current
sha itself, so the conditional check it requests can never be stale. -/
theorem commitFile_existing (st : Store) (p c : String) (fr : FileRecord)
    (hf : st.find p = some fr) :
    commitFile st p c = .ok (st.nextSha, st.set p c) := by
  simp [commitFile, putContents, hf]

/-- Characterization of a dirty save on an existing path with no pending
navigation: the store receives the page's content under a fresh revision,
and the state ends clean with no error. -/
theorem handleSave_dirty (st : Store) (s : EditorState) (cp : EditorPage)
    (fr : FileRecord) (hcp : s.currentPage = some cp) (hd : cp.isDirty = true)
    (hf : st.find cp.path = some fr) (hpn : s.pendingNavigation = none) :
    handleSave st s =
      (st.set cp.path cp.content,
       { s with
         currentPage := some { cp with content := cp.content, isDirty := false },
         isSaving := false, error := "" }) := by
  simp [handleSave, hcp, hd, commitFile_existing st cp.path cp.content fr hf,
        getFileContent, find_set_self, hpn]

/-- C1 fixture: the store after session A, which had opened `about.json` at
revision token 0, committed its content (new token 1). -/
def c1StoreAfterA : Store := ⟨[("about.json", ⟨"A content", 1⟩)], 2⟩

/-- C1 fixture: session B, which also opened `about.json` at token 0 and
still holds its in-memory edit. -/
def c1SessionB : EditorState :=
  ⟨some ⟨⟨"about.json", "about.json", .json⟩, "B content", true⟩, false, "", none⟩

/-- C1 counterexample: two sessions open `about.json` at token 0; session A
commits first (token becomes 1); session B's save then does NOT fail with
`Conflict` — it succeeds (empty error) and overwrites session A's stored
content, because `commitFile` re-fetches the current sha instead of sending
the token session B observed. -/
theorem concurrent_save_overwrites_cex :
    commitFile (Store.mk [("about.json", ⟨"base", 0⟩)] 1) "about.json" "A content" =
      .ok (1, c1StoreAfterA) ∧
    (handleSave c1StoreAfterA c1SessionB).2.error = "" ∧
    (handleSave c1StoreAfterA c1SessionB).1.find "about.json" =
      some ⟨"B content", 2⟩ := by
  decide

/-- C1 (amended): when another writer has committed to the path since the
page was opened, the save does NOT fail with `Conflict`: `commitFile`
re-fetches the current revision immediately before writing, so the save
succeeds and the other writer's stored content is overwritten with the
in-memory edited content (last-write-wins). -/
theorem concurrent_save_overwrites (st : Store) (s : EditorState) (cp : EditorPage)
    (fr : FileRecord) (hcp : s.currentPage = some cp) (hd : cp.isDirty = true)
    (hf : st.find cp.path = some fr) (hpn : s.pendingNavigation = none) :
    (handleSave st s).2.error = "" ∧
    (handleSave st s).1.find cp.path = some ⟨cp.content, st.nextSha⟩ := by
  rw [handleSave_dirty st s cp fr hcp hd hf hpn]
  exact ⟨rfl, find_set_self st cp.path cp.content⟩

/-- C1 witness: the amended theorem applied to the two-session fixture. -/
theorem concurrent_save_overwrites_witness :
    (handleSave c1StoreAfterA c1SessionB).2.error = "" ∧
    (handleSave c1StoreAfterA c1SessionB).1.find "about.json" =
      some ⟨"B content", 2⟩ :=
  concurrent_save_overwrites c1StoreAfterA c1SessionB
    ⟨⟨"about.json", "about.json", .json⟩, "B content", true⟩ ⟨"A content", 1⟩
    rfl rfl (by decide) rfl

/-- C2 fixture: `about.json` stored at revision token 0. -/
def c2Store : Store := ⟨[("about.json", ⟨"base", 0⟩)], 1⟩

/-- C2 fixture: the store after a successful write that consumed token 0. -/
def c2StoreAfter : Store := ⟨[("about.json", ⟨"first", 1⟩)], 2⟩

/-- C2 counterexample: a first write consumes token 0; a server-level write
that actually supplies token 0 again would fail with `Conflict`, but the
client's second write through `commitFile` succeeds — `commitFile` has no
caller-held token to send and re-fetches the current sha instead. -/
theorem commit_reused_token_cex :
    commitFile c2Store "about.json" "first" = .ok (1, c2StoreAfter) ∧
    putContents c2StoreAfter "about.json" "second" (some 0) = .error .conflict ∧
    commitFile c2StoreAfter "about.json" "second" =
      .ok (2, Store.mk [("about.json", ⟨"second", 2⟩)] 3) := by
  decide

/-- C2 (amended): the server-side conditional write does reject a reused
token: after a write supplying token `t` succeeds, a second write supplying
`t` fails with `Conflict`. The client's `commitFile`, however, sends no
caller-held token — it re-fetches the path's current sha immediately before
writing — so a second client-level write to the path succeeds. -/
theorem token_reuse_conflict_client_refetch (st st1 : Store) (p c c2 : String)
    (t n : Nat) (hfresh : t < st.nextSha)
    (h : putContents st p c (some t) = .ok (n, st1)) :
    putContents st1 p c2 (some t) = .error .conflict ∧
    commitFile st1 p c2 = .ok (st1.nextSha, st1.set p c2) := by
  rcases hfind : st.find p with _ | fr
  · simp only [putContents, hfind] at h
    exact Except.noConfusion h
  · simp only [putContents, hfind] at h
    by_cases hs : fr.sha = t
    · rw [if_pos hs, Except.ok.injEq, Prod.mk.injEq] at h
      obtain ⟨-, hst⟩ := h
      subst hst
      refine ⟨?_, commitFile_existing _ _ _ ⟨c, st.nextSha⟩ (find_set_self st p c)⟩
      simp [putContents, find_set_self, ne_of_gt hfresh]
    · rw [if_neg hs] at h
      exact Except.noConfusion h

/-- C2 witness: the amended theorem applied to the token-0 fixture. -/
theorem token_reuse_conflict_client_refetch_witness :
    putContents c2StoreAfter "about.json" "second" (some 0) = .error .conflict ∧
    commitFile c2StoreAfter "about.json" "second" =
      .ok (c2StoreAfter.nextSha, c2StoreAfter.set "about.json" "second") :=
  token_reuse_conflict_client_refetch c2Store c2StoreAfter "about.json" "first" "second"
    0 1 (by decide) (by decide)

/-- C3 fixture: an editor state captured while a save is in flight:
`isSaving = true` and the page still dirty (the code clears the dirty flag
only after the commit resolves). -/
def c3InFlightState : EditorState :=
  ⟨some ⟨⟨"about.json", "about.json", .json⟩, "local edit", true⟩, true, "", none⟩

/-- C3 fixture: the store while that save is in flight. -/
def c3Store : Store := ⟨[("about.json", ⟨"server", 5⟩)], 6⟩

/-- C3 counterexample: a second `handleSave` call issued while `isSaving`
is `true` is not rejected with `Busy`: it executes the commit (the store
receives another write) and reports no error at all. -/
theorem second_save_not_busy_cex :
    (handleSave c3Store c3InFlightState).1.find "about.json" =
      some ⟨"local edit", 6⟩ ∧
    (handleSave c3Store c3InFlightState).2.error = "" := by
  decide

/-- C3 (amended): `handleSave` returns with no effect only when no page is
open or the open page is not dirty; it has no `Busy` guard on `isSaving`,
so a call made while a save is in flight (`isSaving = true`, page still
dirty) executes another write instead of being rejected. -/
theorem save_in_flight_executes (st : Store) (s : EditorState) (cp : EditorPage)
    (fr : FileRecord) (_hsv : s.isSaving = true) (hcp : s.currentPage = some cp)
    (hd : cp.isDirty = true) (hf : st.find cp.path = some fr)
    (hpn : s.pendingNavigation = none) :
    (handleSave st s).1 = st.set cp.path cp.content ∧
    (handleSave st s).2.error = "" := by
  rw [handleSave_dirty st s cp fr hcp hd hf hpn]
  exact ⟨rfl, rfl⟩

/-- C3 witness: the amended theorem applied to the in-flight fixture. -/
theorem save_in_flight_executes_witness :
    (handleSave c3Store c3InFlightState).1 = c3Store.set "about.json" "local edit" ∧
    (handleSave c3Store c3InFlightState).2.error = "" :=
  save_in_flight_executes c3Store c3InFlightState
    ⟨⟨"about.json", "about.json", .json⟩, "local edit", true⟩ ⟨"server", 5⟩
    rfl rfl rfl (by decide) rfl

/-- C4: after every successful save (page open and dirty, path present on
the store, no pending navigation), the confirmatory re-read installs as the
in-memory content exactly the content the server then holds, and the page
becomes clean (`isDirty = false`). -/
theorem save_confirmatory_reread (st : Store) (s : EditorState) (cp : EditorPage)
    (fr : FileRecord) (hcp : s.currentPage = some cp) (hd : cp.isDirty = true)
    (hf : st.find cp.path = some fr) (hpn : s.pendingNavigation = none) :
    getFileContent (handleSave st s).1 cp.path = .ok cp.content ∧
    (handleSave st s).2.currentPage =
      some { cp with content := cp.content, isDirty := false } := by
  rw [handleSave_dirty st s cp fr hcp hd hf hpn]
  exact ⟨by simp [getFileContent, find_set_self], rfl⟩

/-- C4 fixture: a dirty page over a store holding an older revision. -/
def c4Store : Store := ⟨[("a.json", ⟨"srv", 3⟩)], 4⟩

/-- C4 fixture: the editing session holding an unsaved edit of `a.json`. -/
def c4State : EditorState :=
  ⟨some ⟨⟨"a.json", "a.json", .json⟩, "edit", true⟩, false, "", none⟩

/-- C4 witness: the theorem applied to the concrete dirty session. -/
theorem save_confirmatory_reread_witness :
    getFileContent (handleSave c4Store c4State).1 "a.json" = .ok "edit" ∧
    (handleSave c4Store c4State).2.currentPage =
      some ⟨⟨"a.json", "a.json", .json⟩, "edit", false⟩ :=
  save_confirmatory_reread c4Store c4State
    ⟨⟨"a.json", "a.json", .json⟩, "edit", true⟩ ⟨"srv", 3⟩
    rfl rfl (by decide) rfl

/-- C5: for every path, opening it and immediately saving with no edit in
between is a state-wise no-op: the freshly loaded page is not dirty, so
`handleSave` returns both the store and the state unchanged. -/
theorem open_then_save_noop (st : Store) (s : EditorState) (pg : Page) (c : String)
    (h : getFileContent st pg.path = .ok c) :
    handleSave st (loadPage st s pg) = (st, loadPage st s pg) := by
  simp [loadPage, h, handleSave]

/-- C5 fixture: a store holding `about.json`. -/
def c5Store : Store := ⟨[("about.json", ⟨"base", 0⟩)], 1⟩

/-- C5 fixture: an arbitrary prior editor state. -/
def c5State : EditorState := ⟨none, false, "", none⟩

/-- C5 witness: the theorem applied to the concrete store and page. -/
theorem open_then_save_noop_witness :
    handleSave c5Store (loadPage c5Store c5State ⟨"about.json", "about.json", .json⟩) =
      (c5Store, loadPage c5Store c5State ⟨"about.json", "about.json", .json⟩) :=
  open_then_save_noop c5Store c5State ⟨"about.json", "about.json", .json⟩ "base"
    (by decide)

/-- An error returned by a GitHub API call made from the upload route: the
response message plus the HTTP status. -/
structure GhErr where
  message : String
  status : Nat
deriving Repr, DecidableEq

/-- The request fields the upload route's POST handler reads: whether the
server token is configured, and the `file`, `oldFileName` and `folder`
form-data fields (`none` when absent). -/
structure UploadRequest where
  hasToken : Bool
  file : Option String
  oldFileName : Option String
  folder : Option String
deriving Repr, DecidableEq

/-- Outcomes of the three remote GitHub calls the POST handler can make:
the upload put, the get of the old file's sha, and the delete. -/
structure UploadEnv where
  putResult : Except GhErr Unit
  oldShaResult : Except GhErr Nat
  deleteResult : Except GhErr Unit
deriving Repr, DecidableEq

/-- The GitHub operations the POST handler issues, recorded in order. -/
inductive GhOp where
  | put (path : String)
  | getSha (path : String)
  | del (path : String)
deriving Repr, DecidableEq

/-- The JSON responses the POST handler returns. -/
inductive UploadResponse where
  | ok (path filename : String)
  | err (message : String) (status : Nat)
deriving Repr, DecidableEq

/-- Embeds the sanitizer regex replacement of the upload route: characters
outside `[a-zA-Z0-9.-]` become underscores. -/
def sanitizeChar (ch : Char) : Char :=
  if (ch ≥ 'a' ∧ ch ≤ 'z') ∨ (ch ≥ 'A' ∧ ch ≤ 'Z') ∨ (ch ≥ '0' ∧ ch ≤ '9') ∨
      ch = '.' ∨ ch = '-' then ch
  else '_'

/-- Embeds `file.name.replace(/[^a-zA-Z0-9.-]/g, lowline)`: every character
of the name goes through `sanitizeChar`. -/
def sanitizeFileName (name : String) : String := ⟨name.data.map sanitizeChar⟩

/-- Embeds the folder fallback of the upload route: use the trimmed folder
field when it is present and non-empty, otherwise the `images` folder. -/
def resolveFolder (folder : Option String) : String :=
  match folder with
  | some f => if f.trim = "" then "images" else f.trim
  | none => "images"

/-- Embeds `POST` from `src/app/api/upload/route.ts`: checks the token and
the file, builds the timestamped sanitized path, uploads, then — only after
the upload succeeded — best-effort deletes the old file (fetching its sha
first), swallowing any failure of that block, and returns the new path.
Returns the response paired with the list of GitHub operations issued. -/
def POST (req : UploadRequest) (timestamp : Nat) (env : UploadEnv) :
    UploadResponse × List GhOp :=
  if !req.hasToken then (.err "GitHub token not configured" 500, [])
  else
    match req.file with
    | none => (.err "No file provided" 400, [])
    | some fileName =>
      let originalName := sanitizeFileName fileName
      let filename := toString timestamp ++ "-" ++ originalName
      let folderName := resolveFolder req.folder
      let filepath := folderName ++ "/" ++ filename
      match env.putResult with
      | .error e => (.err e.message e.status, [.put filepath])
      | .ok _ =>
        let delOps : List GhOp :=
          match req.oldFileName with
          | some old =>
            if old = "" then []
            else
              let oldFilepath := folderName ++ "/" ++ old
              match env.oldShaResult with
              | .error _ => [.getSha oldFilepath]
              | .ok _ =>
                match env.deleteResult with
                | .error _ => [.getSha oldFilepath, .del oldFilepath]
                | .ok _ => [.getSha oldFilepath, .del oldFilepath]
          | none => []
        (.ok filepath filename, .put filepath :: delOps)

/-- C6: on every execution of the upload route where the upload fails, no
delete of the old asset is issued at all. -/
theorem upload_failure_no_delete (req : UploadRequest) (ts : Nat) (env : UploadEnv)
    (e : GhErr) (hput : env.putResult = .error e) :
    ∀ p, GhOp.del p ∉ (POST req ts env).2 := by
  intro p
  cases hreq : req.hasToken <;> cases hfile : req.file <;>
    simp [POST, hreq, hfile, hput]

/-- C6 witness: the theorem applied to a failing upload of `pic.png` that
was meant to replace `old_123.png`. -/
theorem upload_failure_no_delete_witness :
    GhOp.del "images/old_123.png" ∉
      (POST ⟨true, some "pic.png", some "old_123.png", some "images"⟩ 111
        ⟨.error ⟨"boom", 500⟩, .ok 1, .ok ()⟩).2 :=
  upload_failure_no_delete ⟨true, some "pic.png", some "old_123.png", some "images"⟩
    111 ⟨.error ⟨"boom", 500⟩, .ok 1, .ok ()⟩ ⟨"boom", 500⟩ rfl "images/old_123.png"

/-- C7: when the upload succeeded and the subsequent delete of the old
asset fails, the failure is swallowed: the delete was attempted, yet the
route still returns success carrying the new asset's path. -/
theorem delete_failure_swallowed (req : UploadRequest) (ts : Nat) (env : UploadEnv)
    (fname old : String) (n : Nat) (d : GhErr)
    (htok : req.hasToken = true) (hfile : req.file = some fname)
    (hold : req.oldFileName = some old) (hne : old ≠ "")
    (hput : env.putResult = .ok ()) (hsha : env.oldShaResult = .ok n)
    (hdel : env.deleteResult = .error d) :
    (POST req ts env).1 =
      .ok (resolveFolder req.folder ++ "/" ++ (toString ts ++ "-" ++ sanitizeFileName fname))
        (toString ts ++ "-" ++ sanitizeFileName fname) ∧
    GhOp.del (resolveFolder req.folder ++ "/" ++ old) ∈ (POST req ts env).2 := by
  simp [POST, htok, hfile, hold, hne, hput, hsha, hdel]

/-- C7 witness: the theorem applied to a delete that errors after a
successful upload of `my pic.png` (sanitized to `my_pic.png`). -/
theorem delete_failure_swallowed_witness :
    (POST ⟨true, some "my pic.png", some "old_123.png", none⟩ 42
        ⟨.ok (), .ok 9, .error ⟨"boom", 500⟩⟩).1 =
      .ok "images/42-my_pic.png" "42-my_pic.png" ∧
    GhOp.del "images/old_123.png" ∈
      (POST ⟨true, some "my pic.png", some "old_123.png", none⟩ 42
        ⟨.ok (), .ok 9, .error ⟨"boom", 500⟩⟩).2 := by
  have h := delete_failure_swallowed ⟨true, some "my pic.png", some "old_123.png", none⟩ 42
    ⟨.ok (), .ok 9, .error ⟨"boom", 500⟩⟩ "my pic.png" "old_123.png" 9 ⟨"boom", 500⟩
    rfl rfl rfl (by decide) rfl rfl rfl
  obtain ⟨h1, h2⟩ := h
  refine ⟨?_, ?_⟩
  · rw [h1]
    decide
  · have hp : resolveFolder (none : Option String) ++ "/" ++ "old_123.png" =
        "images/old_123.png" := by decide
    rw [hp] at h2
    exact h2

/-- A GitHub Contents API listing item, as consumed by `discoverPages` in
`utils.ts`: the item's type string, name and path. -/
structure RepoItem where
  type : String
  name : String
  path : String
deriving Repr, DecidableEq

/-- Embeds the filter and map body of `discoverPages`: keep items of type
`file` whose name ends in `.json` or `.html`, classifying the kind by that
suffix (`.json` checked first). -/
def classifyItem (it : RepoItem) : Option Page :=
  if it.type = "file" then
    if it.name.endsWith ".json" then some ⟨it.name, it.path, .json⟩
    else if it.name.endsWith ".html" then some ⟨it.name, it.path, .html⟩
    else none
  else none

/-- The comparator of `discoverPages`, JS
`(a, b) => a.name.localeCompare(b.name)`, modelled as the lexicographic
order on the names. -/
def byName (a b : Page) : Prop := a.name ≤ b.name

instance : DecidableRel byName :=
  fun a b => inferInstanceAs (Decidable (a.name ≤ b.name))

instance : IsTotal Page byName := ⟨fun a b => le_total a.name b.name⟩

instance : IsTrans Page byName := ⟨fun _ _ _ => le_trans⟩

/-- Embeds `discoverPages` from `utils.ts`: a listing failure is caught and
yields the empty list; a successful listing is filtered to file items with
a `.json`/`.html` name suffix, classified by suffix, and sorted by name. -/
def discoverPages (listing : Except GhErr (List RepoItem)) : List Page :=
  match listing with
  | .error _ => []
  | .ok items => List.insertionSort byName (items.filterMap classifyItem)

/-- C8: every listing failure is swallowed into the empty sequence instead
of propagating an error (the page-discovery path issues no writes, so no
stored data can be affected). -/
theorem discover_failure_empty (e : GhErr) : discoverPages (.error e) = [] := rfl

/-- `classifyItem` hits exactly the file items with a `.json` or `.html`
name suffix, and derives the kind from that suffix. -/
theorem classifyItem_eq_some (it : RepoItem) (pg : Page) :
    classifyItem it = some pg ↔
      it.type = "file" ∧
        ((it.name.endsWith ".json" = true ∧ pg = ⟨it.name, it.path, .json⟩) ∨
         (it.name.endsWith ".json" = false ∧ it.name.endsWith ".html" = true ∧
          pg = ⟨it.name, it.path, .html⟩)) := by
  unfold classifyItem
  by_cases h1 : it.type = "file" <;>
    by_cases h2 : it.name.endsWith ".json" = true <;>
      by_cases h3 : it.name.endsWith ".html" = true <;>
        simp [h1, h2, h3, eq_comm]

/-- C9: on a successful listing, `discoverPages` returns a sorted-by-name
permutation of the classified items — exactly the file entries whose name
suffix classifies them as json or html, with the kind derived from the
suffix. -/
theorem discover_sorted_filtered (items : List RepoItem) :
    List.Sorted byName (discoverPages (.ok items)) ∧
    List.Perm (discoverPages (.ok items)) (items.filterMap classifyItem) ∧
    ∀ pg : Page, pg ∈ discoverPages (.ok items) ↔
      ∃ it ∈ items, it.type = "file" ∧
        ((it.name.endsWith ".json" = true ∧ pg = ⟨it.name, it.path, .json⟩) ∨
         (it.name.endsWith ".json" = false ∧ it.name.endsWith ".html" = true ∧
          pg = ⟨it.name, it.path, .html⟩)) := by
  refine ⟨List.sorted_insertionSort byName _, List.perm_insertionSort byName _, ?_⟩
  intro pg
  rw [discoverPages, List.mem_insertionSort, List.mem_filterMap]
  constructor
  · rintro ⟨it, hit, hcl⟩
    exact ⟨it, hit, (classifyItem_eq_some it pg).mp hcl⟩
  · rintro ⟨it, hit, hcond⟩
    exact ⟨it, hit, (classifyItem_eq_some it pg).mpr hcond⟩

/-- The zustand `AppStore` state of `store.ts`, parametric over the config,
file-metadata and user types held by the other slices. -/
structure AppStore (Cfg FileMeta User : Type) where
  config : Option Cfg
  files : List FileMeta
  currentPage : Option EditorPage
  user : Option User
  isLoading : Bool
deriving DecidableEq

/-- Embeds `updateCurrentPageContent` from `store.ts`: when a page is open,
`set` merges a copy of it carrying the new content with `isDirty = true`
(only the `currentPage` key is in the merged object); when no page is open,
`set` receives the empty partial state and the store is unchanged. -/
def updateCurrentPageContent {Cfg FileMeta User : Type}
    (s : AppStore Cfg FileMeta User) (content : String) :
    AppStore Cfg FileMeta User :=
  match s.currentPage with
  | some p =>
    { s with currentPage := some { p with content := content, isDirty := true } }
  | none => s

/-- C10: the content edit changes only the open page's `content` and
`isDirty` fields (its name, path and type are preserved) and touches no
other field of the store; with no open page it is the identity. -/
theorem updateContent_frame {Cfg FileMeta User : Type}
    (s : AppStore Cfg FileMeta User) (c : String) :
    (updateCurrentPageContent s c).config = s.config ∧
    (updateCurrentPageContent s c).files = s.files ∧
    (updateCurrentPageContent s c).user = s.user ∧
    (updateCurrentPageContent s c).isLoading = s.isLoading ∧
    (∀ p, s.currentPage = some p →
      (updateCurrentPageContent s c).currentPage =
        some { p with content := c, isDirty := true }) ∧
    (s.currentPage = none → updateCurrentPageContent s c = s) := by
  cases h : s.currentPage <;> simp [updateCurrentPageContent, h]

/-- C10 fixture: a store state holding an open clean page. -/
def c10State : AppStore Unit Unit Unit :=
  ⟨none, [], some ⟨⟨"a.json", "a.json", .json⟩, "old", false⟩, none, false⟩

/-- C10 witness: the frame theorem applied to the concrete store state. -/
theorem updateContent_frame_witness :
    (updateCurrentPageContent c10State "new").files = ([] : List Unit) ∧
    (updateCurrentPageContent c10State "new").currentPage =
      some ⟨⟨"a.json", "a.json", .json⟩, "new", true⟩ :=
  ⟨(updateContent_frame c10State "new").2.1,
   (updateContent_frame c10State "new").2.2.2.2.1
     ⟨⟨"a.json", "a.json", .json⟩, "old", false⟩ rfl⟩

end TsaCms
